import Mathlib

/-! Verification of the BOT-MAKER-BOT generation pipeline (src/unnamed/part_000,
the variant the claims cite as authoritative).

Strings are modelled as `List Char`.  The JavaScript regular-expression based
extraction routines (`parseFiles`, the overview / file-list extraction inside
`swarmGenerate`) are embedded as executable character scanners that reproduce
the leftmost-match / lazy-quantifier semantics of the source regexes.  The
Mistral chat completion service, `JSON.parse`, `JSON.stringify` and the zip
archive builder are host collaborators and enter the model as oracle
parameters; database rows (`user_states`) appear as explicit `Option` state
passed to and returned from the command handlers.  Discord progress-message
edits are pure status output without influence on the data flow and are
elided. -/

namespace BotMaker

/-- Strings as lists of characters. -/
abbrev Str := List Char

/-- Convert a Lean string literal to the character-list model. -/
def str (s : String) : Str := s.toList

/-- Line terminators of JavaScript regexes: the characters that `.` does not
match and that the multiline `$` anchors before (LF, CR, LS, PS). -/
def isLineTerm (c : Char) : Bool :=
  c = '\n' || c = '\r' || c = Char.ofNat 0x2028 || c = Char.ofNat 0x2029

/-- White space as consumed by JavaScript `String.prototype.trim` and `\s`
(the common members: ASCII blanks, NBSP, BOM, LS, PS). -/
def isJsSpace (c : Char) : Bool :=
  c = ' ' || c = '\t' || c = '\n' || c = '\r' || c = Char.ofNat 0xb ||
  c = Char.ofNat 0xc || c = Char.ofNat 0xa0 || c = Char.ofNat 0xfeff ||
  c = Char.ofNat 0x2028 || c = Char.ofNat 0x2029

/-- ASCII letters, the characters matched by `[a-z]` under the `i` flag. -/
def isAsciiAlpha (c : Char) : Bool :=
  ('a' ≤ c && c ≤ 'z') || ('A' ≤ c && c ≤ 'Z')

/-- Lower-casing of ASCII letters, as used by case-insensitive regex matching
of ASCII patterns. -/
def lowerAscii (c : Char) : Char :=
  if 'A' ≤ c ∧ c ≤ 'Z' then Char.ofNat (c.toNat + 32) else c

/-- Test whether `pat` is an initial segment of `s`. -/
def leadsWith : Str → Str → Bool
  | [], _ => true
  | _ :: _, [] => false
  | c :: cs, d :: ds => c == d && leadsWith cs ds

/-- Test whether `pat` occurs as a contiguous substring of `s`. -/
def containsSub (pat : Str) : Str → Bool
  | [] => pat.isEmpty
  | s@(_ :: cs) => leadsWith pat s || containsSub pat cs

/-- Test whether `s` ends with `pat` (anchored suffix match, regex `...$`). -/
def endsWithL (pat s : Str) : Bool := leadsWith pat.reverse s.reverse

/-- Index of the first character satisfying `p` (JS `indexOf`, `none` for -1). -/
def firstIdx (p : Char → Bool) : Str → Option Nat
  | [] => none
  | c :: cs => if p c then some 0 else (firstIdx p cs).map (· + 1)

/-- Index of the last character satisfying `p` (JS `lastIndexOf`). -/
def lastIdx (p : Char → Bool) (s : Str) : Option Nat :=
  (firstIdx p s.reverse).map (fun i => s.length - 1 - i)

/-- JavaScript `String.prototype.trim`. -/
def jsTrim (s : Str) : Str :=
  ((s.dropWhile isJsSpace).reverse.dropWhile isJsSpace).reverse

/-! ## Output Parser (`parseFiles`, part_000 lines 209-222)

JS source:
```text
function parseFiles(content) \x7b
    const files = [];
    const regex = /\[FILE_START:(.+?)\]([\s\S]*?)(?=\[FILE_START:|\[FILE_END\]|$)/g;
    let match;
    while ((match = regex.exec(content)) !== null) \x7b
        let fileName = match[1].trim().replace(/[*#]/g, '');
        let fileContent = match[2].trim();
        fileContent = fileContent.replace(/^```[a-z]*\n/i, '').replace(/\n```$/m, '');
        if (fileName && fileContent) \x7b
            files.push(\x7b name: fileName, content: fileContent \x7d);
        \x7d
    \x7d
    return files;
\x7d
```
-/

/-- The start delimiter `[FILE_START:` (12 characters). -/
def fileStartMark : Str := '[' :: str "FILE_START:"

/-- The advisory end delimiter `[FILE_END]` (10 characters). -/
def fileEndMark : Str := '[' :: str "FILE_END]"

/-- Scanner for the lazy group `(.+?)\]` after at least one character has been
consumed: stop at the first `]`, fail on a line terminator (`.` does not match
those) or end of input.  `acc` holds the characters read so far, reversed.
Returns the name and the number of characters consumed including the `]`. -/
def scanNameGo (acc : Str) : Str → Option (Str × Nat)
  | [] => none
  | d :: ds =>
    if d = ']' then some (acc.reverse, acc.length + 1)
    else if isLineTerm d then none
    else scanNameGo (d :: acc) ds

/-- Scanner for `(.+?)\]`: at least one non-terminator character, then up to
the first `]`. -/
def scanName : Str → Option (Str × Nat)
  | [] => none
  | c :: cs => if isLineTerm c then none else scanNameGo [c] cs

/-- Scanner for the lazy body `([\s\S]*?)` with the lookahead
`(?=\[FILE_START:|\[FILE_END\]|$)`: the body extends to the first occurrence
of either delimiter, or to the end of input.  Returns body and the rest,
which begins at the lookahead position. -/
def scanBody : Str → Str × Str
  | [] => ([], [])
  | s@(c :: cs) =>
    if leadsWith fileStartMark s || leadsWith fileEndMark s then ([], s)
    else
      let p := scanBody cs
      (c :: p.1, p.2)

/-- The `regex.exec` loop: from each position try to start a match
(`[FILE_START:` followed by a valid lazy name); on success record the raw
(name, body) pair and resume scanning at the lookahead position, otherwise
bump the start position by one character.  `fuel` bounds the recursion and is
instantiated with the input length, which always suffices because every step
consumes at least one character. -/
def parseLoopF : Nat → Str → List (Str × Str)
  | 0, _ => []
  | _ + 1, [] => []
  | f + 1, s@(_ :: cs) =>
    if leadsWith fileStartMark s then
      match scanName (s.drop 12) with
      | some (n, k) =>
        let p := scanBody (s.drop (12 + k))
        (n, p.1) :: parseLoopF f p.2
      | none => parseLoopF f cs
    else parseLoopF f cs

/-- All raw `[FILE_START:name]body` matches of the input, in order. -/
def parseBlocks (s : Str) : List (Str × Str) := parseLoopF s.length s

/-- One named file artifact. -/
structure Artifact where
  name : Str
  content : Str
deriving DecidableEq, Repr

/-- Name post-processing: `match[1].trim().replace(/[*#]/g, '')`. -/
def processName (n : Str) : Str :=
  (jsTrim n).filter (fun c => !(c == '*' || c == '#'))

/-- `replace(/^```[a-z]*\n/i, '')`: drop a leading fence line made of three
backticks, an ASCII-letter info string, and a newline. -/
def stripOpener (s : Str) : Str :=
  if leadsWith (str "```") s then
    match (s.drop 3).dropWhile isAsciiAlpha with
    | '\n' :: tail => tail
    | _ => s
  else s

/-- Whether the multiline `$` anchor matches in front of `s`. -/
def atLineEnd : Str → Bool
  | [] => true
  | c :: _ => isLineTerm c

/-- `replace(/\n```$/m, '')`: remove the first occurrence of a newline
followed by three backticks at a line end.  Because of the `m` flag this is
the first line-final fence anywhere in the text, not necessarily a trailing
one. -/
def stripCloser : Str → Str
  | [] => []
  | '\n' :: rest =>
    if leadsWith (str "```") rest && atLineEnd (rest.drop 3) then rest.drop 3
    else '\n' :: stripCloser rest
  | c :: rest => c :: stripCloser rest

/-- Content post-processing: trim, then both fence replacements. -/
def processContent (b : Str) : Str := stripCloser (stripOpener (jsTrim b))

/-- Post-processing and the truthiness filter of one raw match. -/
def mkArtifact (p : Str × Str) : Option Artifact :=
  let nm := processName p.1
  let ct := processContent p.2
  if nm ≠ [] ∧ ct ≠ [] then some ⟨nm, ct⟩ else none

/-- The Output Parser. -/
def parseFiles (s : Str) : List Artifact :=
  (parseBlocks s).filterMap mkArtifact

/-! ## Plan Extractor (inside `swarmGenerate`, part_000 lines 136-159)

Overview: `planContent.match(/\[OVERVIEW_START\]([\s\S]*?)\[OVERVIEW_END\]/)`,
trimmed capture on a match, otherwise the fixed placeholder.

File list: `planContent.match(/\[FILE_LIST:\s*([\s\S]*?)\]/)`, then trim,
global removal of ```` ```json ```` / ```` ``` ````, `indexOf('[')`,
`lastIndexOf(']')`, `substring`, `JSON.parse`, all inside `try`; an absent or
empty result is replaced by the fixed fallback list. -/

/-- The marker `[OVERVIEW_START]` (16 characters). -/
def ovStartMark : Str := '[' :: str "OVERVIEW_START]"

/-- The marker `[OVERVIEW_END]` (14 characters). -/
def ovEndMark : Str := '[' :: str "OVERVIEW_END]"

/-- Characters before the first occurrence of `pat` (the lazy group
`([\s\S]*?)` bounded by a literal). -/
def upToSub (pat : Str) : Str → Str
  | [] => []
  | s@(c :: cs) => if leadsWith pat s then [] else c :: upToSub pat cs

/-- The capture of `/\[OVERVIEW_START\]([\s\S]*?)\[OVERVIEW_END\]/`: at the
leftmost start marker that is followed by an end marker, everything up to the
first end marker; `none` when the regex does not match. -/
def overviewCapture : Str → Option Str
  | [] => none
  | s@(_ :: cs) =>
    if leadsWith ovStartMark s && containsSub ovEndMark (s.drop 16) then
      some (upToSub ovEndMark (s.drop 16))
    else overviewCapture cs

/-- The placeholder used when the overview regex does not match. -/
def defaultOverview : Str := str "🚀 Destroyer Mission Active."

/-- `overviewMatch ? overviewMatch[1].trim() : "🚀 Destroyer Mission Active."` -/
def extractOverview (plan : Str) : Str :=
  match overviewCapture plan with
  | some cap => jsTrim cap
  | none => defaultOverview

/-- The marker `[FILE_LIST:` (11 characters). -/
def flMark : Str := '[' :: str "FILE_LIST:"

/-- The capture of `/\[FILE_LIST:\s*([\s\S]*?)\]/`: the regex matches at the
leftmost marker occurrence that is followed by some `]`; the greedy `\s*`
consumes the whitespace run and the lazy group stops at the first `]`, so the
capture is the text strictly between them and never contains a `]` itself. -/
def fileListCapture : Str → Option Str
  | [] => none
  | s@(_ :: cs) =>
    if leadsWith flMark s && (s.drop 11).any (fun c => c == ']') then
      some (((s.drop 11).dropWhile isJsSpace).takeWhile (fun c => !(c == ']')))
    else fileListCapture cs

/-- Global removal of fence markers: `replace(/```json|```/g, '')`, longest
alternative first at each position.  Fuel-based; `fuel = length` suffices. -/
def sfmF : Nat → Str → Str
  | 0, l => l
  | _ + 1, [] => []
  | f + 1, l@(c :: cs) =>
    if leadsWith (str "```json") l then sfmF f (l.drop 7)
    else if leadsWith (str "```") l then sfmF f (l.drop 3)
    else c :: sfmF f cs

/-- `replace(/```json|```/g, '')`. -/
def stripFenceMarks (l : Str) : Str := sfmF l.length l

/-- The hardcoded fallback file list. -/
def fallbackFileList : List Str :=
  [str "index.js", str "package.json", str "README.md"]

/-- The file-list extraction of `swarmGenerate`.  `jp` abstracts the host
`JSON.parse` restricted to this call site: `some l` models a successful parse
into an array of strings, `none` a thrown exception (swallowed by the
enclosing `try`); the branch is in fact unreachable, so every behaviour of
the host primitive is covered by quantifying over `jp`.  JS `substring`
exchanges its endpoints when given in descending order, hence the
`min`/`max`. -/
def extractFileList (jp : Str → Option (List Str)) (plan : Str) : List Str :=
  let files : List Str :=
    match fileListCapture plan with
    | none => []
    | some cap =>
      let j := stripFenceMarks (jsTrim cap)
      match firstIdx (fun c => c == '[') j, lastIdx (fun c => c == ']') j with
      | some si, some ei =>
        let a := min si (ei + 1)
        let b := max si (ei + 1)
        match jp ((j.drop a).take (b - a)) with
        | some l => l
        | none => []
      | _, _ => []
  if files.isEmpty then fallbackFileList else files

/-! ## Persona Router (part_000 lines 168-172)

```text
let persona = PERSONAS.BACKEND;
if (fileName.match(/\.(html|css|jsx|tsx)$/)) persona = PERSONAS.FRONTEND;
if (fileName.match(/\.(sql|prisma|db)$/)) persona = PERSONAS.DATABASE;
if (fileName.match(/(security|auth|jwt|encrypt)/i)) persona = PERSONAS.SECURITY;
```
-/

/-- The four build-phase generation roles. -/
inductive Persona where
  | backend
  | frontend
  | database
  | security
deriving DecidableEq, Repr

/-- `fileName.match(/\.(html|css|jsx|tsx)$/)` as a Boolean. -/
def frontendMatch (fn : Str) : Bool :=
  endsWithL (str ".html") fn || endsWithL (str ".css") fn ||
  endsWithL (str ".jsx") fn || endsWithL (str ".tsx") fn

/-- `fileName.match(/\.(sql|prisma|db)$/)` as a Boolean. -/
def dbMatch (fn : Str) : Bool :=
  endsWithL (str ".sql") fn || endsWithL (str ".prisma") fn ||
  endsWithL (str ".db") fn

/-- `fileName.match(/(security|auth|jwt|encrypt)/i)` as a Boolean. -/
def secMatch (fn : Str) : Bool :=
  containsSub (str "security") (fn.map lowerAscii) ||
  containsSub (str "auth") (fn.map lowerAscii) ||
  containsSub (str "jwt") (fn.map lowerAscii) ||
  containsSub (str "encrypt") (fn.map lowerAscii)

/-- The dynamic persona selection: sequential reassignments, so a later test
that succeeds overrides every earlier one. -/
def selectPersona (fn : Str) : Persona :=
  let p := Persona.backend
  let p := if frontendMatch fn then Persona.frontend else p
  let p := if dbMatch fn then Persona.database else p
  let p := if secMatch fn then Persona.security else p
  p

/-- Router written from the amended claim's words: the rules are tried with
the security-keyword rule taking precedence, then the data-layer suffixes,
then the front-end suffixes, i.e. the LAST matching rule of the source's
listed order wins. -/
def personaSpecLastWins (fn : Str) : Persona :=
  if secMatch fn then Persona.security
  else if dbMatch fn then Persona.database
  else if frontendMatch fn then Persona.frontend
  else Persona.backend

/-! ## Swarm Engine (`swarmGenerate`, part_000 lines 122-195)

`llm` abstracts `mistral.chat.complete`: it receives the system-role text and
the user content and returns the response text or fails (network or model
error, surfaced as a thrown exception).  The temporal anchor is an input. -/

/-- System text of the ARCHITECT phase persona. -/
def personaARCHITECT : Str := str "You are GHOST-ARCHITECT. Plan a production-grade multi-file project.\n1. Provide a \"PROJECT_OVERVIEW\" in markdown.\n2. Provide a \"FILE_LIST\" in JSON array format.\n\nFORMAT:\n[OVERVIEW_START]\nMarkdown here...\n[OVERVIEW_END]\n[FILE_LIST: [\"file1.ext\", \"file2.ext\"]]\n\nRULES:\n- NO BLOAT: Only include dependencies strictly necessary for core features.\n- REALISM: Avoid experimental junk.\n- PRECISION: Every file must serve a clear purpose."

/-- System texts of the build-phase personas. -/
def personaText : Persona → Str
  | Persona.backend => str "You are GHOST-BACKEND. Write elite, efficient backend code. \nOnly import what you actually use. wrap in [FILE_START:filename]...[FILE_END]"
  | Persona.frontend => str "You are GHOST-FRONTEND. Write premium UI code. no bloat. wrap in [FILE_START:filename]...[FILE_END]"
  | Persona.database => str "You are GHOST-DB-ARCHITECT. Write clean schemas. wrap in [FILE_START:filename]...[FILE_END]"
  | Persona.security => str "You are GHOST-SECURITY. Implement hardened logic. wrap in [FILE_START:filename]...[FILE_END]"

/-- System text of the brainstorm/chat consultant. -/
def personaCONSULTANT : Str := str "You are GHOST-CONSULTANT. Help the user plan their project. Ask smart questions about tech stack, features, and security. Keep it professional but \"badass\". If they are ready, tell them to use !spawn."

/-- User content of the architect call. -/
def archContent (prompt ctx anchor : Str) : Str :=
  str "REQUEST: " ++ prompt ++ str "\nCONTEXT: " ++ ctx ++
  str "\nANCHOR: " ++ anchor

/-- User content of one build call. -/
def buildContent (plan fn ctx anchor : Str) : Str :=
  str "MASTER PLAN: " ++ plan ++
  str "\nTASK: Write the FULL, elite-level code for " ++ fn ++
  str ".\nCONTEXT: " ++ ctx ++ str "\nANCHOR: " ++ anchor

/-- Fallback-artifact name: `fileName.replace(/[*#]/g, '')` (no trim). -/
def starHashClean (fn : Str) : Str :=
  fn.filter (fun c => !(c == '*' || c == '#'))

/-- Per-file artifact accumulation: the parsed artifacts, or, when parsing
yields none, a single fallback artifact carrying the whole raw response. -/
def buildArtifacts (fn resp : Str) : List Artifact :=
  let extracted := parseFiles resp
  if extracted.length > 0 then extracted
  else [⟨starHashClean fn, resp⟩]

/-- The build-phase loop, sequential and fail-fast: the first failed model
call aborts the remaining files. -/
def buildLoop (llm : Str → Str → Except Unit Str) (plan ctx anchor : Str) :
    List Str → Except Unit (List Artifact)
  | [] => Except.ok []
  | fn :: rest =>
    match llm (personaText (selectPersona fn)) (buildContent plan fn ctx anchor) with
    | Except.error e => Except.error e
    | Except.ok resp =>
      match buildLoop llm plan ctx anchor rest with
      | Except.error e => Except.error e
      | Except.ok more => Except.ok (buildArtifacts fn resp ++ more)

/-- Result of one pipeline run. -/
structure SwarmResult where
  files : List Artifact
  overview : Str
deriving DecidableEq, Repr

/-- `swarmGenerate`: architect call, plan extraction, build loop.  The
auditor phase performs no data transformation (a progress edit only). -/
def swarmGenerate (llm : Str → Str → Except Unit Str)
    (jp : Str → Option (List Str)) (prompt ctx anchor : Str) :
    Except Unit SwarmResult :=
  match llm personaARCHITECT (archContent prompt ctx anchor) with
  | Except.error e => Except.error e
  | Except.ok planContent =>
    match buildLoop llm planContent ctx anchor (extractFileList jp planContent) with
    | Except.error e => Except.error e
    | Except.ok files => Except.ok ⟨files, extractOverview planContent⟩

/-! ## Project memory and command handlers (part_000 lines 50-70, 234-354) -/

/-- One `user_states` row (all columns nullable). -/
structure GhostState where
  lastResponse : Option Str
  lastPrompt : Option Str
  lastPlan : Option Str
deriving DecidableEq, Repr

/-- How a command run ends, as visible to the requester. -/
inductive ReplyKind where
  | inputMissing
  | precondFail
  | runError
  | noFiles
  | delivered
deriving DecidableEq, Repr

/-- Observable outcome of one command invocation: the reply class and the
state written to the store (`none` when no write happened). -/
structure HandlerOutcome where
  reply : ReplyKind
  stored : Option GhostState
deriving DecidableEq, Repr

/-- JS template interpolation of a nullable string: `null` prints as the
four-character text `null`. -/
def jsShowOpt : Option Str → Str
  | none => str "null"
  | some s => s

/-- The spawn prompt: `state?.lastPlan ? \x60PLAN APPROVED. ...\x60 : prompt`
(JS truthiness: a null, absent or empty plan falls back to the bare
prompt). -/
def spawnFullPrompt (state : Option GhostState) (prompt : Str) : Str :=
  match state.bind (·.lastPlan) with
  | some p =>
    if p = [] then prompt
    else str "PLAN APPROVED. BUILD: " ++ p ++ str "\nUSER REQUEST: " ++ prompt
  | none => prompt

/-- The tweak prompt synthesized from the instruction and the stored state. -/
def tweakFullPrompt (req : Str) (lastResp : Option Str) : Str :=
  str "TWEAK PROJECT. Changes: " ++ req ++ str ". PREVIOUS_STATE: " ++
  jsShowOpt lastResp

/-- The `!spawn` handler.  `stringify` abstracts `JSON.stringify` on the
artifact array, `archive` the zip construction plus delivery of the reply
(which runs after the store write and can still fail inside the same
`try`). -/
def spawnHandler (llm : Str → Str → Except Unit Str)
    (jp : Str → Option (List Str)) (stringify : List Artifact → Str)
    (archive : List Artifact → Except Unit Unit)
    (prompt ctx anchor : Str) (state : Option GhostState) : HandlerOutcome :=
  if prompt = [] then ⟨ReplyKind.inputMissing, none⟩
  else
    match swarmGenerate llm jp (spawnFullPrompt state prompt) ctx anchor with
    | Except.error _ => ⟨ReplyKind.runError, none⟩
    | Except.ok res =>
      let saved : GhostState :=
        ⟨some (stringify res.files), some prompt, state.bind (·.lastPlan)⟩
      if res.files.length > 0 then
        match archive res.files with
        | Except.error _ => ⟨ReplyKind.runError, some saved⟩
        | Except.ok _ => ⟨ReplyKind.delivered, some saved⟩
      else ⟨ReplyKind.noFiles, some saved⟩

/-- The `!tweak` handler: requires a stored row, then reuses the swarm with
the synthesized tweak prompt and carries `lastPlan` forward on the write. -/
def tweakHandler (llm : Str → Str → Except Unit Str)
    (jp : Str → Option (List Str)) (stringify : List Artifact → Str)
    (archive : List Artifact → Except Unit Unit)
    (req ctx anchor : Str) (state : Option GhostState) : HandlerOutcome :=
  match state with
  | none => ⟨ReplyKind.precondFail, none⟩
  | some st =>
    if req = [] then ⟨ReplyKind.inputMissing, none⟩
    else
      match swarmGenerate llm jp (tweakFullPrompt req st.lastResponse) ctx anchor with
      | Except.error _ => ⟨ReplyKind.runError, none⟩
      | Except.ok res =>
        let saved : GhostState :=
          ⟨some (stringify res.files), some req, st.lastPlan⟩
        if res.files.length > 0 then
          match archive res.files with
          | Except.error _ => ⟨ReplyKind.runError, some saved⟩
          | Except.ok _ => ⟨ReplyKind.delivered, some saved⟩
        else ⟨ReplyKind.noFiles, some saved⟩

/-- The `!brainstorm` / `!chat` handler: one consultant call, then the write
`\x7b...state, lastPlan: reply\x7d` which spreads the previous row (or nothing
when absent) and replaces only `lastPlan`.  A failed model call is an
unhandled rejection: nothing is written. -/
def brainstormHandler (llm : Str → Str → Except Unit Str)
    (query : Str) (state : Option GhostState) : HandlerOutcome :=
  if query = [] then ⟨ReplyKind.inputMissing, none⟩
  else
    let history : Str :=
      match state.bind (·.lastPlan) with
      | some p => if p = [] then str "No previous plan." else p
      | none => str "No previous plan."
    match llm personaCONSULTANT
        (str "HISTORY: " ++ history ++ str "\nUSER_QUERY: " ++ query) with
    | Except.error _ => ⟨ReplyKind.runError, none⟩
    | Except.ok reply =>
      ⟨ReplyKind.delivered,
        some ⟨state.bind (·.lastResponse), state.bind (·.lastPrompt), some reply⟩⟩

/-! ## Well-formed inputs of the Output Parser

A sequence of file blocks is rendered back into the delimiter convention in
order to state the round-trip properties of `parseFiles`. -/

/-- Render one (name, body) block in the delimiter convention, terminated by
the next block or the end of input. -/
def serializeBlock (p : Str × Str) : Str :=
  fileStartMark ++ p.1 ++ ']' :: p.2

/-- Render a block sequence by juxtaposition. -/
def serialize : List (Str × Str) → Str
  | [] => []
  | p :: ps => serializeBlock p ++ serialize ps

/-- A marker name the lazy name group recovers exactly: non-empty, free of
`]` and of line terminators. -/
def GoodName (n : Str) : Prop :=
  n ≠ [] ∧ ∀ c ∈ n, c ≠ ']' ∧ isLineTerm c = false

instance (n : Str) : Decidable (GoodName n) := by
  unfold GoodName; infer_instance

/-- A body the lookahead scan passes through whole: free of `[`, so that
neither delimiter can begin inside it or straddle its end. -/
def PlainBody (b : Str) : Prop := ∀ c ∈ b, c ≠ '['

instance (b : Str) : Decidable (PlainBody b) := by
  unfold PlainBody; infer_instance

/-! ## Concrete collaborators used in closed instance theorems -/

/-- A model response carrying one well-formed file block. -/
def respOneFile : Str := str "[FILE_START:w.js]\nlet a = 1\n[FILE_END]"

/-- A generation service that always answers with `respOneFile`. -/
def llmOneFile : Str → Str → Except Unit Str := fun _ _ => Except.ok respOneFile

/-- A generation service whose every call fails. -/
def llmDown : Str → Str → Except Unit Str := fun _ _ => Except.error ()

/-- A generation service answering with fixed consultant text. -/
def llmPlanText : Str → Str → Except Unit Str := fun _ _ =>
  Except.ok (str "PLAN: a todo bot")

/-- A `JSON.parse` oracle that parses exactly the array `["app.js"]`. -/
def jpAppJs : Str → Option (List Str) := fun s =>
  if s = str "[\"app.js\"]" then some [str "app.js"] else none

/-- A fixed serialization oracle for stored artifact sets. -/
def stringifySER : List Artifact → Str := fun _ => str "SER"

/-- An archive builder that always succeeds. -/
def archiveUp : List Artifact → Except Unit Unit := fun _ => Except.ok ()

/-- An archive builder whose construction or delivery fails. -/
def archiveDown : List Artifact → Except Unit Unit := fun _ => Except.error ()

/-! ## Scanner lemmas -/

theorem leadsWith_append (p t : Str) : leadsWith p (p ++ t) = true := by
  induction p with
  | nil => rfl
  | cons c cs ih => simp [leadsWith, ih]

theorem leadsWith_cons_ne (a : Char) (p : Str) {c : Char} (t : Str)
    (h : c ≠ a) : leadsWith (a :: p) (c :: t) = false := by
  have hac : (a == c) = false := by
    cases hEq : a == c
    · rfl
    · exact absurd (eq_of_beq hEq).symm h
  simp [leadsWith, hac]

theorem scanNameGo_append (rest : Str) : ∀ (acc r : Str),
    (∀ c ∈ rest, c ≠ ']' ∧ isLineTerm c = false) →
    scanNameGo acc (rest ++ ']' :: r) =
      some (acc.reverse ++ rest, acc.length + rest.length + 1) := by
  induction rest with
  | nil => intro acc r _; simp [scanNameGo]
  | cons c rest ih =>
    intro acc r h
    have hc := h c (by simp)
    simp only [List.cons_append, List.append_eq, scanNameGo, hc.1, hc.2,
      Bool.false_eq_true, if_false]
    rw [ih (c :: acc) r (fun d hd => h d (List.mem_cons_of_mem _ hd))]
    refine congrArg some (Prod.ext ?_ ?_)
    · simp [List.append_assoc]
    · simp
      omega

theorem scanName_append (n r : Str) (h : GoodName n) :
    scanName (n ++ ']' :: r) = some (n, n.length + 1) := by
  obtain ⟨hne, hall⟩ := h
  cases n with
  | nil => exact absurd rfl hne
  | cons c rest =>
    have hc := hall c (by simp)
    simp only [List.cons_append, List.append_eq, scanName, hc.2,
      Bool.false_eq_true, if_false]
    rw [scanNameGo_append rest [c] r (fun d hd => hall d (List.mem_cons_of_mem _ hd))]
    refine congrArg some (Prod.ext (by simp) ?_)
    simp
    omega

theorem scanBody_append (b : Str) : ∀ r : Str, PlainBody b →
    (r = [] ∨ leadsWith fileStartMark r = true) →
    scanBody (b ++ r) = (b, r) := by
  induction b with
  | nil =>
    intro r _ hr
    rcases hr with rfl | hr
    · rfl
    · cases r with
      | nil => rfl
      | cons x xs => simp [scanBody, hr]
  | cons c b ih =>
    intro r hb hr
    have hc : c ≠ '[' := hb c (by simp)
    have h1 : leadsWith fileStartMark (c :: (b ++ r)) = false :=
      leadsWith_cons_ne '[' (str "FILE_START:") _ hc
    have h2 : leadsWith fileEndMark (c :: (b ++ r)) = false :=
      leadsWith_cons_ne '[' (str "FILE_END]") _ hc
    simp only [List.cons_append, List.append_eq, scanBody, h1, h2,
      Bool.or_self, Bool.false_eq_true, if_false]
    rw [ih r (fun d hd => hb d (List.mem_cons_of_mem _ hd)) hr]

theorem serialize_cons (p : Str × Str) (ps : List (Str × Str)) :
    serialize (p :: ps) =
      fileStartMark ++ (p.1 ++ ']' :: (p.2 ++ serialize ps)) := by
  simp [serialize, serializeBlock, List.append_assoc]

theorem parseLoopF_match (f : Nat) (t n : Str) (k : Nat)
    (h : scanName t = some (n, k)) :
    parseLoopF (f + 1) (fileStartMark ++ t) =
      (n, (scanBody (t.drop k)).1) :: parseLoopF f (scanBody (t.drop k)).2 := by
  have hcons : fileStartMark ++ t = '[' :: (str "FILE_START:" ++ t) := rfl
  have hlw : leadsWith fileStartMark ('[' :: (str "FILE_START:" ++ t)) = true := by
    rw [← hcons]; exact leadsWith_append _ _
  have hd12 : ('[' :: (str "FILE_START:" ++ t)).drop 12 = t := by
    rw [← hcons, show (12 : Nat) = fileStartMark.length from by decide]
    exact List.drop_left _ _
  have hdk : ('[' :: (str "FILE_START:" ++ t)).drop (12 + k) = t.drop k := by
    rw [← hcons, show (12 : Nat) = fileStartMark.length from by decide]
    simp [List.drop_append]
  rw [hcons]
  simp only [parseLoopF, hlw, if_true, hd12, hdk, h]

theorem parseLoopF_serialize (bs : List (Str × Str)) :
    ∀ f : Nat, (serialize bs).length ≤ f →
    (∀ p ∈ bs, GoodName p.1 ∧ PlainBody p.2) →
    parseLoopF f (serialize bs) = bs := by
  induction bs with
  | nil => intro f _ _; cases f <;> rfl
  | cons p ps ih =>
    intro f hf h
    obtain ⟨n, b⟩ := p
    obtain ⟨hn, hb⟩ := h (n, b) (by simp)
    have hlen : (serialize ((n, b) :: ps)).length =
        13 + n.length + b.length + (serialize ps).length := by
      rw [serialize_cons]
      simp [fileStartMark, str]
      omega
    cases f with
    | zero => omega
    | succ f =>
      have hname : scanName (n ++ ']' :: (b ++ serialize ps)) =
          some (n, n.length + 1) := scanName_append n _ hn
      have hdrop : (n ++ ']' :: (b ++ serialize ps)).drop (n.length + 1) =
          b ++ serialize ps := by
        rw [show n ++ ']' :: (b ++ serialize ps) =
              (n ++ [']']) ++ (b ++ serialize ps) by simp,
            show n.length + 1 = (n ++ [']']).length by simp]
        exact List.drop_left _ _
      have hrest : serialize ps = [] ∨
          leadsWith fileStartMark (serialize ps) = true := by
        cases ps with
        | nil => exact Or.inl rfl
        | cons q qs =>
          right
          rw [serialize_cons]
          exact leadsWith_append _ _
      have hbody : scanBody (b ++ serialize ps) = (b, serialize ps) :=
        scanBody_append b _ hb hrest
      rw [serialize_cons, parseLoopF_match f _ n (n.length + 1) hname, hdrop, hbody]
      rw [ih f (by omega) (fun q hq => h q (List.mem_cons_of_mem _ hq))]

theorem parseBlocks_serialize (bs : List (Str × Str))
    (h : ∀ p ∈ bs, GoodName p.1 ∧ PlainBody p.2) :
    parseBlocks (serialize bs) = bs :=
  parseLoopF_serialize bs _ le_rfl h

theorem parseFiles_serialize (bs : List (Str × Str))
    (h : ∀ p ∈ bs, GoodName p.1 ∧ PlainBody p.2) :
    parseFiles (serialize bs) = bs.filterMap mkArtifact := by
  unfold parseFiles
  rw [parseBlocks_serialize bs h]

theorem filterMap_all_some {α β : Type} (f : α → Option β) (g : α → β)
    (l : List α) (h : ∀ a ∈ l, f a = some (g a)) :
    l.filterMap f = l.map g := by
  induction l with
  | nil => rfl
  | cons x xs ih =>
    rw [List.filterMap_cons, h x (by simp), List.map_cons,
      ih (fun a ha => h a (List.mem_cons_of_mem _ ha))]

/-! ## Membership and emptiness lemmas for the extraction pipelines -/

theorem mem_of_mem_dropWhile {p : Char → Bool} {c : Char} :
    ∀ {l : Str}, c ∈ l.dropWhile p → c ∈ l := by
  intro l
  induction l with
  | nil => intro h; simp at h
  | cons x xs ih =>
    intro h
    rw [List.dropWhile_cons] at h
    split at h
    · exact List.mem_cons_of_mem _ (ih h)
    · exact h

theorem mem_of_mem_jsTrim {s : Str} {c : Char} (h : c ∈ jsTrim s) : c ∈ s := by
  unfold jsTrim at h
  have h2 := mem_of_mem_dropWhile (List.mem_reverse.mp h)
  exact mem_of_mem_dropWhile (List.mem_reverse.mp h2)

theorem sfmF_mem : ∀ (f : Nat) (l : Str) (c : Char), c ∈ sfmF f l → c ∈ l := by
  intro f
  induction f with
  | zero => intro l c h; exact h
  | succ f ih =>
    intro l c h
    cases l with
    | nil => simp [sfmF] at h
    | cons x xs =>
      simp only [sfmF] at h
      split at h
      · exact List.mem_of_mem_drop (ih _ _ h)
      · split at h
        · exact List.mem_of_mem_drop (ih _ _ h)
        · rcases List.mem_cons.mp h with rfl | h
          · exact List.mem_cons_self _ _
          · exact List.mem_cons_of_mem _ (ih _ _ h)

theorem mem_takeWhile_pred {p : Char → Bool} {c : Char} :
    ∀ {l : Str}, c ∈ l.takeWhile p → p c = true := by
  intro l
  induction l with
  | nil => intro h; simp [List.takeWhile] at h
  | cons x xs ih =>
    intro h
    rw [List.takeWhile_cons] at h
    split at h
    · rcases List.mem_cons.mp h with rfl | h
      · assumption
      · exact ih h
    · simp at h

theorem dropWhile_eq_nil_of_all {p : Char → Bool} :
    ∀ {l : Str}, (∀ c ∈ l, p c = true) → l.dropWhile p = [] := by
  intro l
  induction l with
  | nil => intro _; rfl
  | cons x xs ih =>
    intro h
    rw [List.dropWhile_cons, if_pos (h x (by simp))]
    exact ih (fun c hc => h c (List.mem_cons_of_mem _ hc))

theorem jsTrim_of_all_space {s : Str} (h : ∀ c ∈ s, isJsSpace c = true) :
    jsTrim s = [] := by
  unfold jsTrim
  rw [dropWhile_eq_nil_of_all h]
  rfl

theorem firstIdx_eq_none {p : Char → Bool} :
    ∀ {l : Str}, (∀ c ∈ l, p c = false) → firstIdx p l = none := by
  intro l
  induction l with
  | nil => intro _; rfl
  | cons x xs ih =>
    intro h
    have hx := h x (by simp)
    simp only [firstIdx, hx, Bool.false_eq_true, if_false]
    rw [ih (fun c hc => h c (List.mem_cons_of_mem _ hc))]
    rfl

theorem lastIdx_eq_none {p : Char → Bool} {l : Str}
    (h : ∀ c ∈ l, p c = false) : lastIdx p l = none := by
  unfold lastIdx
  rw [firstIdx_eq_none (fun c hc => h c (List.mem_reverse.mp hc))]
  rfl

theorem fileListCapture_no_rb :
    ∀ (plan cap : Str), fileListCapture plan = some cap → ∀ c ∈ cap, c ≠ ']' := by
  intro plan
  induction plan with
  | nil => intro cap h; cases h
  | cons x xs ih =>
    intro cap h c hc
    simp only [fileListCapture] at h
    split at h
    · cases h
      have := mem_takeWhile_pred hc
      simp at this
      exact this
    · exact ih cap h c hc

theorem overviewCapture_eq_none :
    ∀ plan : Str, containsSub ovStartMark plan = false →
    overviewCapture plan = none := by
  intro plan
  induction plan with
  | nil => intro _; rfl
  | cons x xs ih =>
    intro h
    simp only [containsSub, Bool.or_eq_false_iff] at h
    simp only [overviewCapture, h.1, Bool.false_and, Bool.false_eq_true, if_false]
    exact ih h.2

theorem buildArtifacts_length (fn resp : Str) :
    1 ≤ (buildArtifacts fn resp).length := by
  simp only [buildArtifacts]
  split
  · omega
  · simp

/-! ## Claim theorems -/

/-- C1, counterexample.  The claim asserts that for well-formed blocks the
artifact content is the exact trimmed body with only a leading fence opener
line and a trailing fence closer line stripped.  On the single well-formed
block `[FILE_START:a.js]x\n<fence>\ny` — whose trimmed body has no leading
opener and does not end in a fence line — the parser nevertheless deletes
the mid-content fence line, because `replace(/\n<fence>$/m, '')` with the
multiline flag removes the first line-final fence anywhere, so the produced
content differs from the trimmed body the claim requires. -/
theorem c1_counterexample :
    parseFiles (str "[FILE_START:a.js]x\n```\ny") =
      [⟨str "a.js", str "x\ny"⟩] ∧
    str "x\ny" ≠ str "x\n```\ny" := by decide

/-- C1, amended.  For every input assembled from N well-formed file blocks
(non-empty names free of `]` and line terminators, bodies free of `[`, both
surviving post-processing non-empty), `parseFiles` returns exactly N
artifacts in input order; each name is the trimmed marker name with `*` and
`#` removed, and each content is the trimmed body after the two fence
replacements: a leading line of three backticks plus ASCII letters plus a
newline is stripped, and the first newline-plus-three-backticks sequence at a
line end is removed. -/
theorem c1_amended_wellformed_blocks (bs : List (Str × Str))
    (h : ∀ p ∈ bs, GoodName p.1 ∧ PlainBody p.2 ∧
      processName p.1 ≠ [] ∧ processContent p.2 ≠ []) :
    parseFiles (serialize bs) =
      bs.map (fun p => ⟨processName p.1, processContent p.2⟩) := by
  rw [parseFiles_serialize bs (fun p hp => ⟨(h p hp).1, (h p hp).2.1⟩)]
  refine filterMap_all_some _ _ _ (fun p hp => ?_)
  have hp' := h p hp
  simp [mkArtifact, hp'.2.2.1, hp'.2.2.2]

/-- C1, witness: the amended theorem applied to two concrete well-formed
blocks, yielding both artifacts in order. -/
theorem c1_amended_witness :
    (∀ p ∈ ([(str "a.js", str "\ncode one\n"),
             (str "b.css", str "\nbody two\n")] : List (Str × Str)),
      GoodName p.1 ∧ PlainBody p.2 ∧
      processName p.1 ≠ [] ∧ processContent p.2 ≠ []) ∧
    parseFiles (serialize [(str "a.js", str "\ncode one\n"),
                           (str "b.css", str "\nbody two\n")]) =
      [⟨str "a.js", str "code one"⟩, ⟨str "b.css", str "body two"⟩] :=
  ⟨by decide, by
    rw [c1_amended_wellformed_blocks _ (by decide)]
    decide⟩

/-- C2.  The file-list extraction of `swarmGenerate` returns the hardcoded
fallback list on EVERY input, under EVERY behaviour of the host `JSON.parse`:
the lazy capture of `/\[FILE_LIST:\s*([\s\S]*?)\]/` stops in front of the
first `]`, so the capture never contains a `]`, `lastIndexOf(']')` is always
-1, and the parse branch is unreachable.  In particular the claimed
round-trip of a valid embedded JSON array never happens. -/
theorem c2_extractFileList_always_fallback
    (jp : Str → Option (List Str)) (plan : Str) :
    extractFileList jp plan = fallbackFileList := by
  simp only [extractFileList]
  cases hcap : fileListCapture plan with
  | none => simp
  | some cap =>
    have hno : ∀ c ∈ stripFenceMarks (jsTrim cap),
        (fun c => c == ']') c = false := by
      intro c hc
      have hcne : c ≠ ']' :=
        fileListCapture_no_rb plan cap hcap c
          (mem_of_mem_jsTrim (sfmF_mem _ _ _ hc))
      simp [hcne]
    have hlast : lastIdx (fun c => c == ']') (stripFenceMarks (jsTrim cap)) =
        none := lastIdx_eq_none hno
    cases hfi : firstIdx (fun c => c == '[') (stripFenceMarks (jsTrim cap)) with
    | none => simp [hfi, hlast]
    | some si => simp [hfi, hlast]

/-- C3.  In the build loop, a per-file response in which the Output Parser
finds nothing yields exactly one fallback artifact, named after the requested
file with `*` and `#` removed, whose content is the raw response verbatim;
consequently a successful build produces at least as many artifacts as
planned files — no planned file is dropped. -/
theorem c3_build_fallback (llm : Str → Str → Except Unit Str)
    (plan ctx anchor : Str) (files : List Str) (arts : List Artifact)
    (h : buildLoop llm plan ctx anchor files = Except.ok arts) :
    files.length ≤ arts.length ∧
    ∀ fn resp : Str, parseFiles resp = [] →
      buildArtifacts fn resp = [⟨starHashClean fn, resp⟩] := by
  constructor
  · induction files generalizing arts with
    | nil =>
      simp only [buildLoop] at h
      injection h with h
      subst h
      simp
    | cons fn rest ih =>
      simp only [buildLoop] at h
      cases hllm : llm (personaText (selectPersona fn))
          (buildContent plan fn ctx anchor) with
      | error e => rw [hllm] at h; cases h
      | ok resp =>
        rw [hllm] at h
        cases hrest : buildLoop llm plan ctx anchor rest with
        | error e => rw [hrest] at h; cases h
        | ok more =>
          rw [hrest] at h
          injection h with h
          subst h
          have h1 := buildArtifacts_length fn resp
          have h2 := ih more hrest
          simp only [List.length_append, List.length_cons]
          omega
  · intro fn resp hp
    simp [buildArtifacts, hp]

/-- C3, witness: a build of the single planned file `auth.js` whose response
contains no markers, delivering exactly the raw-response fallback artifact
(end-to-end scenario 4 of the spec). -/
theorem c3_build_fallback_witness :
    buildLoop (fun _ _ => Except.ok (str "no markers here")) (str "P")
        (str "C") (str "A") [str "auth.js"] =
      Except.ok [⟨str "auth.js", str "no markers here"⟩] ∧
    ([str "auth.js"] : List Str).length ≤
      [(⟨str "auth.js", str "no markers here"⟩ : Artifact)].length :=
  ⟨rfl, (c3_build_fallback (fun _ _ => Except.ok (str "no markers here"))
    (str "P") (str "C") (str "A") [str "auth.js"]
    [⟨str "auth.js", str "no markers here"⟩] rfl).1⟩

/-- C4.  A tweak with no stored row for the requester is independent of every
collaborator (hence makes no generation call), writes nothing to the store,
and replies with the precondition failure. -/
theorem c4_tweak_without_memory
    (llm llm' : Str → Str → Except Unit Str)
    (jp jp' : Str → Option (List Str))
    (stringify stringify' : List Artifact → Str)
    (archive archive' : List Artifact → Except Unit Unit)
    (req ctx anchor req' ctx' anchor' : Str) :
    tweakHandler llm jp stringify archive req ctx anchor none =
      tweakHandler llm' jp' stringify' archive' req' ctx' anchor' none ∧
    (tweakHandler llm jp stringify archive req ctx anchor none).stored = none ∧
    (tweakHandler llm jp stringify archive req ctx anchor none).reply =
      ReplyKind.precondFail :=
  ⟨rfl, rfl, rfl⟩

/-- C5, counterexample.  The claim asserts first-match-wins priority, with
the front-end suffix rule beating the later security-keyword rule.  On
`auth.css` the front-end rule matches, yet the router returns the security
persona, because the source's sequential reassignments let the LAST matching
rule win. -/
theorem c5_counterexample :
    frontendMatch (str "auth.css") = true ∧
    selectPersona (str "auth.css") = Persona.security ∧
    Persona.security ≠ Persona.frontend := by decide

/-- C5, amended.  The router evaluates its rules in the fixed listed order
with the LAST match winning: the security-keyword rule overrides the
data-layer suffix rule, which overrides the front-end suffix rule; the
generic backend role applies when nothing matches. -/
theorem c5_amended_last_match_wins (fn : Str) :
    selectPersona fn = personaSpecLastWins fn := rfl

/-- C6, counterexample.  A present but empty overview section: the regex
matches with an empty capture, so the extractor returns the empty overview,
not the fixed placeholder the claim requires. -/
theorem c6_empty_overview_counterexample :
    extractOverview (str "[OVERVIEW_START][OVERVIEW_END]") = [] ∧
    defaultOverview ≠ [] := by decide

/-- C6, amended.  The fixed placeholder is substituted exactly when the
overview regex does not match — in particular for every response containing
no `[OVERVIEW_START]` marker at all; a present-but-empty section instead
yields the empty overview. -/
theorem c6_amended_absent_marker_placeholder (plan : Str)
    (h : containsSub ovStartMark plan = false) :
    extractOverview plan = defaultOverview := by
  simp [extractOverview, overviewCapture_eq_none plan h]

/-- C6, witness: a response with no overview markers receives the
placeholder. -/
theorem c6_amended_witness :
    containsSub ovStartMark (str "plain text plan") = false ∧
    extractOverview (str "plain text plan") = defaultOverview :=
  ⟨by decide, c6_amended_absent_marker_placeholder _ (by decide)⟩

/-- C7.  An input of N blocks of which one has a whitespace-only body and the
other N-1 are fully well-formed yields exactly N-1 artifacts: the empty-body
candidate is discarded by the truthiness filter, never fabricated. -/
theorem c7_empty_block_discarded (bs1 bs2 : List (Str × Str)) (n e : Str)
    (h1 : ∀ p ∈ bs1, GoodName p.1 ∧ PlainBody p.2 ∧
      processName p.1 ≠ [] ∧ processContent p.2 ≠ [])
    (h2 : ∀ p ∈ bs2, GoodName p.1 ∧ PlainBody p.2 ∧
      processName p.1 ≠ [] ∧ processContent p.2 ≠ [])
    (hn : GoodName n) (he : ∀ c ∈ e, isJsSpace c = true) :
    (parseFiles (serialize (bs1 ++ (n, e) :: bs2))).length =
      bs1.length + bs2.length := by
  have hePlain : PlainBody e := by
    intro c hc hceq
    have hsp := he c hc
    subst hceq
    simp [isJsSpace] at hsp
  have hall : ∀ p ∈ bs1 ++ (n, e) :: bs2, GoodName p.1 ∧ PlainBody p.2 := by
    intro p hp
    rcases List.mem_append.mp hp with hp1 | hp2
    · exact ⟨(h1 p hp1).1, (h1 p hp1).2.1⟩
    · rcases List.mem_cons.mp hp2 with rfl | hp2
      · exact ⟨hn, hePlain⟩
      · exact ⟨(h2 p hp2).1, (h2 p hp2).2.1⟩
  rw [parseFiles_serialize _ hall]
  have hpc : processContent e = [] := by
    unfold processContent
    rw [jsTrim_of_all_space he]
    rfl
  have hmid : mkArtifact (n, e) = none := by
    simp [mkArtifact, hpc]
  rw [List.filterMap_append, List.filterMap_cons, hmid,
    filterMap_all_some mkArtifact
      (fun p => ⟨processName p.1, processContent p.2⟩) bs1 (fun p hp => by
        have hx := h1 p hp
        simp [mkArtifact, hx.2.2.1, hx.2.2.2]),
    filterMap_all_some mkArtifact
      (fun p => ⟨processName p.1, processContent p.2⟩) bs2 (fun p hp => by
        have hx := h2 p hp
        simp [mkArtifact, hx.2.2.1, hx.2.2.2])]
  simp

/-- C7, witness: three blocks, the middle one whitespace-only, produce the
two surrounding artifacts only. -/
theorem c7_witness :
    ((∀ p ∈ ([(str "a.js", str "one")] : List (Str × Str)),
        GoodName p.1 ∧ PlainBody p.2 ∧
        processName p.1 ≠ [] ∧ processContent p.2 ≠ []) ∧
     (∀ p ∈ ([(str "c.js", str "three")] : List (Str × Str)),
        GoodName p.1 ∧ PlainBody p.2 ∧
        processName p.1 ≠ [] ∧ processContent p.2 ≠ []) ∧
     GoodName (str "b.js") ∧ (∀ c ∈ str "  \n ", isJsSpace c = true)) ∧
    (parseFiles (serialize ([(str "a.js", str "one")] ++
        (str "b.js", str "  \n ") :: [(str "c.js", str "three")]))).length =
      1 + 1 :=
  ⟨⟨by decide, by decide, by decide, by decide⟩,
    c7_empty_block_discarded [(str "a.js", str "one")]
      [(str "c.js", str "three")] (str "b.js") (str "  \n ")
      (by decide) (by decide) (by decide) (by decide)⟩

/-- C8.  `lastPlan` and the artifact memory evolve independently: whatever a
brainstorm run writes preserves `lastResponse` and `lastPrompt` and replaces
only `lastPlan`; whatever a tweak run writes carries the prior `lastPlan`
forward unchanged while replacing `lastResponse` with the serialized new
artifact set and `lastPrompt` with the tweak instruction. -/
theorem c8_plan_artifacts_independent
    (llm : Str → Str → Except Unit Str) (query : Str) (st out : GhostState)
    (h1 : (brainstormHandler llm query (some st)).stored = some out)
    (llm2 : Str → Str → Except Unit Str) (jp : Str → Option (List Str))
    (stringify : List Artifact → Str)
    (archive : List Artifact → Except Unit Unit)
    (req ctx anchor : Str) (out2 : GhostState)
    (h2 : (tweakHandler llm2 jp stringify archive req ctx anchor
      (some st)).stored = some out2) :
    out.lastResponse = st.lastResponse ∧ out.lastPrompt = st.lastPrompt ∧
    (∃ r, out.lastPlan = some r) ∧
    out2.lastPlan = st.lastPlan ∧ out2.lastPrompt = some req ∧
    (∃ fs, out2.lastResponse = some (stringify fs)) := by
  simp only [brainstormHandler, Option.bind_some] at h1
  simp only [tweakHandler] at h2
  split at h1
  · simp at h1
  · split at h1
    · simp at h1
    · injection h1 with h1
      subst h1
      split at h2
      · simp at h2
      · split at h2
        · simp at h2
        · split at h2
          · split at h2 <;>
              (injection h2 with h2; subst h2;
               exact ⟨rfl, rfl, ⟨_, rfl⟩, rfl, rfl, ⟨_, rfl⟩⟩)
          · injection h2 with h2
            subst h2
            exact ⟨rfl, rfl, ⟨_, rfl⟩, rfl, rfl, ⟨_, rfl⟩⟩

/-- C8, witness: a brainstorm over a full row replaces only the plan, and a
subsequent successful tweak replaces response and prompt while keeping the
plan. -/
theorem c8_witness :
    (brainstormHandler llmPlanText (str "q")
        (some ⟨some (str "R"), some (str "P"), some (str "plan")⟩)).stored =
      some ⟨some (str "R"), some (str "P"), some (str "PLAN: a todo bot")⟩ ∧
    (tweakHandler llmOneFile jpAppJs stringifySER archiveUp
        (str "make it blue") (str "ctx") (str "anchor")
        (some ⟨some (str "R"), some (str "P"), some (str "plan")⟩)).stored =
      some ⟨some (str "SER"), some (str "make it blue"), some (str "plan")⟩ ∧
    (some (str "R") : Option Str) = some (str "R") ∧
    (∃ fs, (some (str "SER") : Option Str) = some (stringifySER fs)) :=
  ⟨rfl, rfl,
    (c8_plan_artifacts_independent llmPlanText (str "q")
      ⟨some (str "R"), some (str "P"), some (str "plan")⟩
      ⟨some (str "R"), some (str "P"), some (str "PLAN: a todo bot")⟩ rfl
      llmOneFile jpAppJs stringifySER archiveUp
      (str "make it blue") (str "ctx") (str "anchor")
      ⟨some (str "SER"), some (str "make it blue"), some (str "plan")⟩
      rfl).1,
    (c8_plan_artifacts_independent llmPlanText (str "q")
      ⟨some (str "R"), some (str "P"), some (str "plan")⟩
      ⟨some (str "R"), some (str "P"), some (str "PLAN: a todo bot")⟩ rfl
      llmOneFile jpAppJs stringifySER archiveUp
      (str "make it blue") (str "ctx") (str "anchor")
      ⟨some (str "SER"), some (str "make it blue"), some (str "plan")⟩
      rfl).2.2.2.2.2⟩

/-- C9, counterexample.  A spawn run in which the swarm succeeds but archive
construction (or delivery) fails: the run ends in the error reply, yet the
store has already been replaced — the write happens before archive
construction, contradicting the claim that any failure before full completion
including archiving leaves the memory unchanged. -/
theorem c9_archive_failure_counterexample :
    (spawnHandler llmOneFile jpAppJs stringifySER archiveDown
        (str "make a bot") (str "ctx") (str "anchor") none).reply =
      ReplyKind.runError ∧
    (spawnHandler llmOneFile jpAppJs stringifySER archiveDown
        (str "make a bot") (str "ctx") (str "anchor") none).stored =
      some ⟨some (str "SER"), some (str "make a bot"), none⟩ :=
  ⟨rfl, rfl⟩

/-- C9, amended.  The store is written at most once per run, and only after
the generation pipeline has succeeded: a run rejected on input, a tweak
without stored memory, and a run whose `swarmGenerate` fails at any phase all
leave the store untouched.  The write, however, precedes archive
construction, so an archive failure happens after the new state is already
persisted. -/
theorem c9_amended_no_write_on_generation_failure
    (llm : Str → Str → Except Unit Str) (jp : Str → Option (List Str))
    (stringify : List Artifact → Str)
    (archive : List Artifact → Except Unit Unit)
    (prompt req ctx anchor : Str) (state : Option GhostState)
    (st : GhostState)
    (h1 : swarmGenerate llm jp (spawnFullPrompt state prompt) ctx anchor =
      Except.error ())
    (h2 : swarmGenerate llm jp (tweakFullPrompt req st.lastResponse) ctx
      anchor = Except.error ()) :
    (spawnHandler llm jp stringify archive prompt ctx anchor state).stored =
      none ∧
    (spawnHandler llm jp stringify archive [] ctx anchor state).stored =
      none ∧
    (tweakHandler llm jp stringify archive req ctx anchor
      (some st)).stored = none ∧
    (tweakHandler llm jp stringify archive req ctx anchor none).stored =
      none := by
  refine ⟨?_, rfl, ?_, rfl⟩
  · simp only [spawnHandler]
    split
    · rfl
    · rw [h1]
  · simp only [tweakHandler]
    split
    · rfl
    · rw [h2]

/-- C9, witness: with a generation service that is down, neither spawn nor
the amended statement's other runs write anything. -/
theorem c9_amended_witness :
    swarmGenerate llmDown jpAppJs (spawnFullPrompt none (str "x"))
        (str "c") (str "a") = Except.error () ∧
    swarmGenerate llmDown jpAppJs
        (tweakFullPrompt (str "t") (some (str "R"))) (str "c") (str "a") =
      Except.error () ∧
    (spawnHandler llmDown jpAppJs stringifySER archiveUp (str "x")
        (str "c") (str "a") none).stored = none :=
  ⟨rfl, rfl,
    (c9_amended_no_write_on_generation_failure llmDown jpAppJs stringifySER
      archiveUp (str "x") (str "t") (str "c") (str "a") none
      ⟨some (str "R"), some (str "P"), none⟩ rfl rfl).1⟩

/-- C10.  The tweak precondition checks only that a row exists: after a
brainstorm-only interaction by a requester with no prior row, the stored row
has `lastResponse` and `lastPrompt` null and only `lastPlan` set; a
subsequent tweak with a non-empty instruction is not rejected as a
precondition failure (nor as missing input), and the prompt it hands to the
pipeline embeds the JavaScript rendering `null` of the absent previous
state. -/
theorem c10_tweak_after_brainstorm_only
    (llm : Str → Str → Except Unit Str) (query : Str) (out : GhostState)
    (h1 : (brainstormHandler llm query none).stored = some out)
    (llm2 : Str → Str → Except Unit Str) (jp : Str → Option (List Str))
    (stringify : List Artifact → Str)
    (archive : List Artifact → Except Unit Unit)
    (req ctx anchor : Str) (hreq : req ≠ []) :
    out.lastResponse = none ∧ out.lastPrompt = none ∧
    (∃ r, out.lastPlan = some r) ∧
    (tweakHandler llm2 jp stringify archive req ctx anchor
      (some out)).reply ≠ ReplyKind.precondFail ∧
    (tweakHandler llm2 jp stringify archive req ctx anchor
      (some out)).reply ≠ ReplyKind.inputMissing ∧
    tweakFullPrompt req out.lastResponse =
      str "TWEAK PROJECT. Changes: " ++ req ++
        str ". PREVIOUS_STATE: null" := by
  simp only [brainstormHandler, Option.bind_none] at h1
  split at h1
  · simp at h1
  · split at h1
    · simp at h1
    · injection h1 with h1
      subst h1
      refine ⟨rfl, rfl, ⟨_, rfl⟩, ?_, ?_, ?_⟩
      · simp only [tweakHandler]
        split
        · next hx => exact absurd hx hreq
        · split
          · simp
          · split
            · split <;> simp
            · simp
      · simp only [tweakHandler]
        split
        · next hx => exact absurd hx hreq
        · split
          · simp
          · split
            · split <;> simp
            · simp
      · have hcat : str ". PREVIOUS_STATE: " ++ str "null" =
            str ". PREVIOUS_STATE: null" := by decide
        simp only [tweakFullPrompt, jsShowOpt, Option.none_bind,
          List.append_assoc, hcat]

/-- C10, witness: brainstorm with no prior row, then the non-rejection facts
and the synthesized null-embedding prompt at a concrete instruction. -/
theorem c10_witness :
    (brainstormHandler llmPlanText (str "q") none).stored =
      some ⟨none, none, some (str "PLAN: a todo bot")⟩ ∧
    str "t" ≠ ([] : Str) ∧
    tweakFullPrompt (str "t")
        (⟨none, none, some (str "PLAN: a todo bot")⟩ : GhostState).lastResponse =
      str "TWEAK PROJECT. Changes: " ++ str "t" ++
        str ". PREVIOUS_STATE: null" :=
  ⟨rfl, by decide,
    (c10_tweak_after_brainstorm_only llmPlanText (str "q")
      ⟨none, none, some (str "PLAN: a todo bot")⟩ rfl
      llmDown jpAppJs stringifySER archiveUp
      (str "t") (str "c") (str "a") (by decide)).2.2.2.2.2⟩

end BotMaker
